import Mathlib

/-!
Verification of the CareerQR repository (qr_scanner.py, azure_resume_parser.py,
azure_ai_advisor.py, azure_speaker.py, app.py) against its natural-language
specification.  The Python sources are embedded shallowly: pure string
manipulation becomes Lean functions on `String`/`List Char`; calls into
external libraries and cloud services (pyzbar, OpenCV, PIL transforms, the
`validators` and `re` packages, the Azure SDKs) are modelled as oracle
parameters, since their behaviour is not part of this repository; fallible
Python code (try/except) becomes `Option`/`Except` and explicit outcome types.
-/

/-! ## Shared string helpers -/

/-- The space character, `Char.ofNat 32`. -/
def spaceChar : Char := Char.ofNat 32

/-- Boolean prefix test on character lists (kernel-computable). -/
def listPrefixOf : List Char → List Char → Bool
  | [], _ => true
  | _ :: _, [] => false
  | a :: as, b :: bs => a == b && listPrefixOf as bs

/-- Boolean contiguous-sublist test on character lists (kernel-computable). -/
def listInfixOf : List Char → List Char → Bool
  | n, [] => n.isEmpty
  | n, h :: t => listPrefixOf n (h :: t) || listInfixOf n t

/-- Python `str.startswith` (case-sensitive, as in the source). -/
def pyStartsWith (s pre : String) : Bool := listPrefixOf pre.data s.data

/-- Python's substring test `needle in hay` (both already in the intended case). -/
def strInfix (needle hay : String) : Bool := listInfixOf needle.data hay.data

/-- Python's character membership test `c in s`. -/
def charIn (c : Char) (s : String) : Bool := s.data.contains c

/-- Python `str.lower` (ASCII case folding suffices for the sources' inputs). -/
def pyLower (s : String) : String := ⟨s.data.map Char.toLower⟩

/-- Left half of Python `str.strip`: drop leading whitespace. -/
def trimLeftL (l : List Char) : List Char := l.dropWhile Char.isWhitespace

/-- Right half of Python `str.strip`: drop trailing whitespace. -/
def trimRightL : List Char → List Char
  | [] => []
  | c :: cs =>
    match trimRightL cs with
    | [] => if c.isWhitespace then [] else [c]
    | r => c :: r

/-- Python `str.strip` on a character list. -/
def pyStripL (l : List Char) : List Char := trimRightL (trimLeftL l)

/-- Python `str.strip`. -/
def pyStrip (s : String) : String := ⟨pyStripL s.data⟩

/-! ## qr_scanner.py: content-type classification (`QRScanner._detect_qr_type`) -/

namespace QRCodeType

def url : String := "url"

def email : String := "email"

def phone : String := "phone"

def text : String := "text"

def wifi : String := "wifi"

def vcard : String := "vcard"

def location : String := "location"

def unknown : String := "unknown"

end QRCodeType

/-- `QRScanner._detect_qr_type` (qr_scanner.py lines 216-235).  The external
`validators.url` check is the oracle parameter `urlShape`.  The body of the
Python function cannot raise on a string input, so the `except` branch
returning `QRCodeType.UNKNOWN` is unreachable and the embedding is total. -/
def detect_qr_type (urlShape : String → Bool) (data : String) : String :=
  if urlShape data then QRCodeType.url
  else if pyStartsWith data "mailto:" || charIn '@' data then QRCodeType.email
  else if pyStartsWith data "tel:" || pyStartsWith data "phone:" then QRCodeType.phone
  else if pyStartsWith data "wifi:" then QRCodeType.wifi
  else if pyStartsWith data "begin:vcard" then QRCodeType.vcard
  else if pyStartsWith data "geo:" then QRCodeType.location
  else QRCodeType.text

/-- The classification rules exactly as the specification sentence states them:
prefix rules first (`mailto:` for email, `tel:` for phone, `wifi:`,
`begin:vcard`, `geo:`), then the URL-shape check, else plain text.  This is the
spec-side definition used to compare against `detect_qr_type` above. -/
def detectQrTypeSpecSide (urlShape : String → Bool) (data : String) : String :=
  if pyStartsWith data "mailto:" then QRCodeType.email
  else if pyStartsWith data "tel:" then QRCodeType.phone
  else if pyStartsWith data "wifi:" then QRCodeType.wifi
  else if pyStartsWith data "begin:vcard" then QRCodeType.vcard
  else if pyStartsWith data "geo:" then QRCodeType.location
  else if urlShape data then QRCodeType.url
  else QRCodeType.text

/-- A concrete stand-in for the external `validators.url` predicate, accurate
on the schemeless inputs used in the counterexample below: `validators.url`
accepts only strings with an explicit scheme and network location. -/
def urlShapeHttp (s : String) : Bool :=
  pyStartsWith s "http://" || pyStartsWith s "https://"

/-- C1 counterexample: the code classifies `"a@b"` as email because of the
`'@' in data` test, although `"a@b"` matches none of the prefixes in the
claim and has no URL shape, so the claim's rules classify it as plain text;
likewise the code's extra `phone:` prefix makes `"phone:123"` a phone, where
the claim's rules give plain text. -/
theorem detect_qr_type_claim_cex :
    detect_qr_type urlShapeHttp "a@b" = QRCodeType.email ∧
    detectQrTypeSpecSide urlShapeHttp "a@b" = QRCodeType.text ∧
    detect_qr_type urlShapeHttp "phone:123" = QRCodeType.phone ∧
    detectQrTypeSpecSide urlShapeHttp "phone:123" = QRCodeType.text := by
  decide

/-- C1 (amended): for every URL-shape oracle and every decoded string, the
classification checks URL shape first; a non-URL string is email exactly when
it starts with `mailto:` or contains `'@'`; then phone exactly on the `tel:`
or `phone:` prefixes; then `wifi:`, `begin:vcard`, `geo:` in order; every
remaining string is plain text. -/
theorem detect_qr_type_order (u : String → Bool) (d : String) :
    (detect_qr_type u d = QRCodeType.url ↔ u d = true) ∧
    (detect_qr_type u d = QRCodeType.email ↔
      u d = false ∧ (pyStartsWith d "mailto:" = true ∨ charIn '@' d = true)) ∧
    (detect_qr_type u d = QRCodeType.phone ↔
      u d = false ∧ pyStartsWith d "mailto:" = false ∧ charIn '@' d = false ∧
      (pyStartsWith d "tel:" = true ∨ pyStartsWith d "phone:" = true)) ∧
    (detect_qr_type u d = QRCodeType.wifi ↔
      u d = false ∧ pyStartsWith d "mailto:" = false ∧ charIn '@' d = false ∧
      pyStartsWith d "tel:" = false ∧ pyStartsWith d "phone:" = false ∧
      pyStartsWith d "wifi:" = true) ∧
    (detect_qr_type u d = QRCodeType.vcard ↔
      u d = false ∧ pyStartsWith d "mailto:" = false ∧ charIn '@' d = false ∧
      pyStartsWith d "tel:" = false ∧ pyStartsWith d "phone:" = false ∧
      pyStartsWith d "wifi:" = false ∧ pyStartsWith d "begin:vcard" = true) ∧
    (detect_qr_type u d = QRCodeType.location ↔
      u d = false ∧ pyStartsWith d "mailto:" = false ∧ charIn '@' d = false ∧
      pyStartsWith d "tel:" = false ∧ pyStartsWith d "phone:" = false ∧
      pyStartsWith d "wifi:" = false ∧ pyStartsWith d "begin:vcard" = false ∧
      pyStartsWith d "geo:" = true) ∧
    (detect_qr_type u d = QRCodeType.text ↔
      u d = false ∧ pyStartsWith d "mailto:" = false ∧ charIn '@' d = false ∧
      pyStartsWith d "tel:" = false ∧ pyStartsWith d "phone:" = false ∧
      pyStartsWith d "wifi:" = false ∧ pyStartsWith d "begin:vcard" = false ∧
      pyStartsWith d "geo:" = false) := by
  unfold detect_qr_type
  generalize u d = b1
  generalize pyStartsWith d "mailto:" = b2
  generalize charIn '@' d = b3
  generalize pyStartsWith d "tel:" = b4
  generalize pyStartsWith d "phone:" = b5
  generalize pyStartsWith d "wifi:" = b6
  generalize pyStartsWith d "begin:vcard" = b7
  generalize pyStartsWith d "geo:" = b8
  cases b1 <;> cases b2 <;> cases b3 <;> cases b4 <;> cases b5 <;> cases b6 <;>
    cases b7 <;> cases b8 <;> decide

/-! ## azure_resume_parser.py: paragraph triage (lines 80-110) -/

def skillWords : List String := ["skill", "technologies", "tools"]

def projectWords : List String := ["project", "developed", "built", "designed"]

def educationWords : List String :=
  ["education", "bachelor", "master", "degree", "university", "college"]

def experienceWords : List String :=
  ["experience", "worked", "internship", "employment", "job"]

def certificationWords : List String := ["certification", "certificate"]

/-- The five trigger words of the `others` test (line 105). -/
def sectionWords : List String :=
  ["skill", "project", "education", "experience", "certification"]

/-- `any(word in content for word in [...])` where `content = para.content.lower()`. -/
def containsAny (content : String) (ws : List String) : Bool :=
  ws.any (fun w => strInfix w (pyLower content))

structure ResumeBuckets where
  skills : List String
  projects : List String
  education : List String
  experience : List String
  certifications : List String
  others : List String
deriving Repr, DecidableEq

/-- The paragraph-scanning loop of `extract_resume_data_full` (lines 81-106):
each paragraph is appended to every bucket whose trigger-word test fires, and
to `others` exactly when none of the five section words occurs. -/
def scanParagraphs : List String → ResumeBuckets
  | [] => ⟨[], [], [], [], [], []⟩
  | p :: rest =>
    let r := scanParagraphs rest
    { skills := (if containsAny p skillWords then [p] else []) ++ r.skills
      projects := (if containsAny p projectWords then [p] else []) ++ r.projects
      education := (if containsAny p educationWords then [p] else []) ++ r.education
      experience := (if containsAny p experienceWords then [p] else []) ++ r.experience
      certifications :=
        (if containsAny p certificationWords then [p] else []) ++ r.certifications
      others := (if containsAny p sectionWords then [] else [p]) ++ r.others }

/-- The cleanup pass (lines 109-110): `list(set([x.strip() for x in data[key]]))`.
Python's `set` iteration order is arbitrary; `List.dedup` is a deterministic
representative of it, which suffices for the claimed properties (no duplicates,
stripped entries). -/
def cleanList (l : List String) : List String := (l.map pyStrip).dedup

def finalizeBuckets (r : ResumeBuckets) : ResumeBuckets :=
  ⟨cleanList r.skills, cleanList r.projects, cleanList r.education,
   cleanList r.experience, cleanList r.certifications, cleanList r.others⟩

/-- The section part of `extract_resume_data_full` (scan then cleanup). -/
def extract_resume_sections (paras : List String) : ResumeBuckets :=
  finalizeBuckets (scanParagraphs paras)

theorem scanParagraphs_eq_filter (paras : List String) :
    scanParagraphs paras =
      ⟨paras.filter (fun p => containsAny p skillWords),
       paras.filter (fun p => containsAny p projectWords),
       paras.filter (fun p => containsAny p educationWords),
       paras.filter (fun p => containsAny p experienceWords),
       paras.filter (fun p => containsAny p certificationWords),
       paras.filter (fun p => !containsAny p sectionWords)⟩ := by
  induction paras with
  | nil => rfl
  | cons p rest ih =>
    simp only [scanParagraphs, ih, List.filter_cons, ResumeBuckets.mk.injEq]
    refine ⟨?_, ?_, ?_, ?_, ?_, ?_⟩ <;> split <;> simp_all

/-- C3: the scanning loop assigns each paragraph to `skills`, `projects`,
`education`, `experience`, `certifications` by case-insensitive substring
matching on the corresponding trigger words, and to `others` exactly when the
paragraph contains none of the five section words; consequently every
paragraph lands in at least one bucket, and a paragraph can land in several
(witnessed by a paragraph containing both "skill" and "experience"). -/
theorem resume_bucket_assignment (paras : List String) :
    ((scanParagraphs paras).skills = paras.filter (fun p => containsAny p skillWords) ∧
     (scanParagraphs paras).projects = paras.filter (fun p => containsAny p projectWords) ∧
     (scanParagraphs paras).education =
       paras.filter (fun p => containsAny p educationWords) ∧
     (scanParagraphs paras).experience =
       paras.filter (fun p => containsAny p experienceWords) ∧
     (scanParagraphs paras).certifications =
       paras.filter (fun p => containsAny p certificationWords) ∧
     (scanParagraphs paras).others =
       paras.filter (fun p => !containsAny p sectionWords)) ∧
    (∀ p, p ∈ paras →
      p ∈ (scanParagraphs paras).skills ∨ p ∈ (scanParagraphs paras).projects ∨
      p ∈ (scanParagraphs paras).education ∨ p ∈ (scanParagraphs paras).experience ∨
      p ∈ (scanParagraphs paras).certifications ∨ p ∈ (scanParagraphs paras).others) ∧
    ((scanParagraphs ["skill and experience"]).skills = ["skill and experience"] ∧
     (scanParagraphs ["skill and experience"]).experience = ["skill and experience"]) := by
  refine ⟨?_, ?_, by decide⟩
  · rw [scanParagraphs_eq_filter]
    exact ⟨rfl, rfl, rfl, rfl, rfl, rfl⟩
  · intro p hp
    rw [scanParagraphs_eq_filter]
    by_cases hc : containsAny p sectionWords
    · have ⟨w, hw, hinf⟩ := List.any_eq_true.mp hc
      simp only [sectionWords, List.mem_cons, List.not_mem_nil, or_false] at hw
      rcases hw with rfl | rfl | rfl | rfl | rfl
      · exact Or.inl (List.mem_filter.mpr
          ⟨hp, List.any_eq_true.mpr ⟨"skill", by simp [skillWords], hinf⟩⟩)
      · exact Or.inr (Or.inl (List.mem_filter.mpr
          ⟨hp, List.any_eq_true.mpr ⟨"project", by simp [projectWords], hinf⟩⟩))
      · exact Or.inr (Or.inr (Or.inl (List.mem_filter.mpr
          ⟨hp, List.any_eq_true.mpr ⟨"education", by simp [educationWords], hinf⟩⟩)))
      · exact Or.inr (Or.inr (Or.inr (Or.inl (List.mem_filter.mpr
          ⟨hp, List.any_eq_true.mpr ⟨"experience", by simp [experienceWords], hinf⟩⟩))))
      · exact Or.inr (Or.inr (Or.inr (Or.inr (Or.inl (List.mem_filter.mpr
          ⟨hp, List.any_eq_true.mpr
            ⟨"certification", by simp [certificationWords], hinf⟩⟩)))))
    · exact Or.inr (Or.inr (Or.inr (Or.inr (Or.inr
        (List.mem_filter.mpr ⟨hp, by simp [hc]⟩)))))

/-- Witness for C3 at a concrete paragraph list. -/
theorem resume_bucket_assignment_witness :
    "skill" ∈ (scanParagraphs ["skill"]).skills ∨
    "skill" ∈ (scanParagraphs ["skill"]).projects ∨
    "skill" ∈ (scanParagraphs ["skill"]).education ∨
    "skill" ∈ (scanParagraphs ["skill"]).experience ∨
    "skill" ∈ (scanParagraphs ["skill"]).certifications ∨
    "skill" ∈ (scanParagraphs ["skill"]).others :=
  (resume_bucket_assignment ["skill"]).2.1 "skill" (by decide)

theorem dropWhile_head_false {p : Char → Bool} {l : List Char} {c : Char}
    {cs : List Char} (h : l.dropWhile p = c :: cs) : p c = false := by
  have hh := List.head?_dropWhile_not p l
  rw [h] at hh
  simpa using hh

theorem trimRightL_cons_eq (c : Char) (cs : List Char) :
    trimRightL (c :: cs) =
      match trimRightL cs with
      | [] => if c.isWhitespace then [] else [c]
      | r => c :: r := rfl

theorem trimRightL_idem : ∀ l : List Char, trimRightL (trimRightL l) = trimRightL l := by
  intro l
  induction l with
  | nil => rfl
  | cons c cs ih =>
    cases h : trimRightL cs with
    | nil =>
      by_cases hw : c.isWhitespace
      · simp [trimRightL, h, hw]
      · simp [trimRightL, h, hw]
    | cons x xs =>
      have h2 : trimRightL (x :: xs) = x :: xs := by
        rw [← h]; exact ih
      have hc2 : trimRightL (c :: cs) = c :: x :: xs := by
        rw [trimRightL_cons_eq, h]
      rw [hc2, trimRightL_cons_eq, h2]

theorem trimRightL_head (c : Char) (cs : List Char) :
    trimRightL (c :: cs) = [] ∨ ∃ r, trimRightL (c :: cs) = c :: r := by
  cases h : trimRightL cs with
  | nil =>
    by_cases hw : c.isWhitespace
    · left; simp [trimRightL, h, hw]
    · right; exact ⟨[], by simp [trimRightL, h, hw]⟩
  | cons x xs =>
    right; exact ⟨x :: xs, by simp [trimRightL, h]⟩

theorem pyStripL_idem (l : List Char) : pyStripL (pyStripL l) = pyStripL l := by
  unfold pyStripL
  cases ha : trimLeftL l with
  | nil => rfl
  | cons c cs =>
    have hcw : c.isWhitespace = false := dropWhile_head_false ha
    rcases trimRightL_head c cs with h | ⟨r, h⟩
    · rw [h]; rfl
    · rw [h]
      have hleft : trimLeftL (c :: r) = c :: r := by
        unfold trimLeftL
        exact List.dropWhile_cons_of_neg (by simp [hcw])
      rw [hleft]
      have := trimRightL_idem (c :: cs)
      rw [h] at this
      exact this

theorem pyStrip_idem (s : String) : pyStrip (pyStrip s) = pyStrip s :=
  congrArg String.mk (pyStripL_idem s.data)

/-- C10: after the cleanup pass, each of the six category lists is free of
duplicates and each entry is strip-fixed (no leading or trailing whitespace).
The across-the-pass order of entries is deliberately unspecified in the source
(`list(set(...))`); our model fixes one deterministic order. -/
theorem resume_bucket_dedup_strip (paras : List String) :
    ((extract_resume_sections paras).skills.Nodup ∧
     (extract_resume_sections paras).projects.Nodup ∧
     (extract_resume_sections paras).education.Nodup ∧
     (extract_resume_sections paras).experience.Nodup ∧
     (extract_resume_sections paras).certifications.Nodup ∧
     (extract_resume_sections paras).others.Nodup) ∧
    (∀ x, (x ∈ (extract_resume_sections paras).skills ∨
           x ∈ (extract_resume_sections paras).projects ∨
           x ∈ (extract_resume_sections paras).education ∨
           x ∈ (extract_resume_sections paras).experience ∨
           x ∈ (extract_resume_sections paras).certifications ∨
           x ∈ (extract_resume_sections paras).others) → pyStrip x = x) := by
  constructor
  · exact ⟨List.nodup_dedup _, List.nodup_dedup _, List.nodup_dedup _,
      List.nodup_dedup _, List.nodup_dedup _, List.nodup_dedup _⟩
  · intro x hx
    have hmem : x ∈ ((scanParagraphs paras).skills.map pyStrip) ∨
        x ∈ ((scanParagraphs paras).projects.map pyStrip) ∨
        x ∈ ((scanParagraphs paras).education.map pyStrip) ∨
        x ∈ ((scanParagraphs paras).experience.map pyStrip) ∨
        x ∈ ((scanParagraphs paras).certifications.map pyStrip) ∨
        x ∈ ((scanParagraphs paras).others.map pyStrip) := by
      simpa [extract_resume_sections, finalizeBuckets, cleanList,
        List.mem_dedup] using hx
    have : ∃ y, x = pyStrip y := by
      rcases hmem with h | h | h | h | h | h <;>
        · rcases List.mem_map.mp h with ⟨y, _, rfl⟩
          exact ⟨y, rfl⟩
    rcases this with ⟨y, rfl⟩
    exact pyStrip_idem y

/-- Witness for C10 at a concrete paragraph list. -/
theorem resume_bucket_dedup_strip_witness :
    pyStrip "skill" = "skill" :=
  (resume_bucket_dedup_strip ["skill", " skill  "]).2 "skill" (by decide)

/-! ## azure_resume_parser.py: name/email/phone extraction (lines 55-78) -/

structure Contacts where
  name : Option String
  email : Option String
  phone : Option String
deriving Repr, DecidableEq

/-- Python truthiness of a contact field (`not data["name"]` etc.): `None` and
the empty string are falsy. -/
def pyTruthy : Option String → Bool
  | none => false
  | some s => !s.data.isEmpty

/-- One iteration of the key-value loop (lines 56-62).  `kv.key`/`kv.value`
may be `None` (then the pair is skipped); otherwise the if/elif chain fills at
most one still-falsy field with the value's content. -/
def kvStep (c : Contacts) (kv : Option String × Option String) : Contacts :=
  match kv with
  | (some k, some v) =>
    let key := pyLower k
    if strInfix "name" key && !pyTruthy c.name then { c with name := some v }
    else if strInfix "email" key && !pyTruthy c.email then { c with email := some v }
    else if strInfix "phone" key && !pyTruthy c.phone then { c with phone := some v }
    else c
  | _ => c

def kvFill (pairs : List (Option String × Option String)) : Contacts :=
  pairs.foldl kvStep ⟨none, none, none⟩

/-- The single NER document returned by `recognize_entities([full_text])`:
an error flag and the recognized (category, text) entities. -/
structure NerDoc where
  isError : Bool
  entities : List (String × String)

/-- The name fallback (lines 71-78): first `Person` entity of the non-error
document, if any. -/
def firstPerson (doc : NerDoc) : Option String :=
  if doc.isError then none
  else (doc.entities.find? (fun e => e.1 == "Person")).map (fun e => e.2)

/-- The contact part of `extract_resume_data_full` (lines 55-78): key-value
pairs first, then regex backfill for email/phone (the Python `re` engine is
external, so `emailRegex`/`phoneRegex` stand for `extract_email(full_text)` /
`extract_phone(full_text)`), then NER backfill for the name. -/
def extract_contacts (pairs : List (Option String × Option String))
    (emailRegex phoneRegex : Option String) (doc : NerDoc) : Contacts :=
  let c0 := kvFill pairs
  let c1 := if !pyTruthy c0.email then { c0 with email := emailRegex } else c0
  let c2 := if !pyTruthy c1.phone then { c1 with phone := phoneRegex } else c1
  if !pyTruthy c2.name then
    match firstPerson doc with
    | some t => { c2 with name := some t }
    | none => c2
  else c2

theorem kvStep_keeps_name {c : Contacts} (kv : Option String × Option String)
    (h : pyTruthy c.name = true) : (kvStep c kv).name = c.name := by
  rcases kv with ⟨k, v⟩
  cases k <;> cases v <;> simp [kvStep, h] <;> split_ifs <;> rfl

theorem kvStep_keeps_email {c : Contacts} (kv : Option String × Option String)
    (h : pyTruthy c.email = true) : (kvStep c kv).email = c.email := by
  rcases kv with ⟨k, v⟩
  cases k <;> cases v <;> simp [kvStep, h] <;> split_ifs <;> rfl

theorem kvStep_keeps_phone {c : Contacts} (kv : Option String × Option String)
    (h : pyTruthy c.phone = true) : (kvStep c kv).phone = c.phone := by
  rcases kv with ⟨k, v⟩
  cases k <;> cases v <;> simp [kvStep, h] <;> split_ifs <;> rfl

theorem kvFold_keeps_name :
    ∀ (pairs : List (Option String × Option String)) (c : Contacts),
      pyTruthy c.name = true → (pairs.foldl kvStep c).name = c.name := by
  intro pairs
  induction pairs with
  | nil => intro c _; rfl
  | cons kv rest ih =>
    intro c h
    have hs := kvStep_keeps_name kv h
    have ht : pyTruthy (kvStep c kv).name = true := by rw [hs]; exact h
    calc (List.foldl kvStep (kvStep c kv) rest).name
        = (kvStep c kv).name := ih _ ht
      _ = c.name := hs

theorem kvFold_keeps_email :
    ∀ (pairs : List (Option String × Option String)) (c : Contacts),
      pyTruthy c.email = true → (pairs.foldl kvStep c).email = c.email := by
  intro pairs
  induction pairs with
  | nil => intro c _; rfl
  | cons kv rest ih =>
    intro c h
    have hs := kvStep_keeps_email kv h
    have ht : pyTruthy (kvStep c kv).email = true := by rw [hs]; exact h
    calc (List.foldl kvStep (kvStep c kv) rest).email
        = (kvStep c kv).email := ih _ ht
      _ = c.email := hs

theorem kvFold_keeps_phone :
    ∀ (pairs : List (Option String × Option String)) (c : Contacts),
      pyTruthy c.phone = true → (pairs.foldl kvStep c).phone = c.phone := by
  intro pairs
  induction pairs with
  | nil => intro c _; rfl
  | cons kv rest ih =>
    intro c h
    have hs := kvStep_keeps_phone kv h
    have ht : pyTruthy (kvStep c kv).phone = true := by rw [hs]; exact h
    calc (List.foldl kvStep (kvStep c kv) rest).phone
        = (kvStep c kv).phone := ih _ ht
      _ = c.phone := hs

theorem extract_contacts_email_eq (pairs : List (Option String × Option String))
    (e p : Option String) (doc : NerDoc) :
    (extract_contacts pairs e p doc).email =
      (if pyTruthy (kvFill pairs).email then (kvFill pairs).email else e) := by
  rcases hc : kvFill pairs with ⟨n0, e0, p0⟩
  by_cases h1 : pyTruthy e0 = true <;> by_cases h2 : pyTruthy p0 = true <;>
    by_cases h3 : pyTruthy n0 = true <;> cases hfp : firstPerson doc <;>
      simp_all [extract_contacts, hc]

theorem extract_contacts_phone_eq (pairs : List (Option String × Option String))
    (e p : Option String) (doc : NerDoc) :
    (extract_contacts pairs e p doc).phone =
      (if pyTruthy (kvFill pairs).phone then (kvFill pairs).phone else p) := by
  rcases hc : kvFill pairs with ⟨n0, e0, p0⟩
  by_cases h1 : pyTruthy e0 = true <;> by_cases h2 : pyTruthy p0 = true <;>
    by_cases h3 : pyTruthy n0 = true <;> cases hfp : firstPerson doc <;>
      simp_all [extract_contacts, hc]

theorem extract_contacts_name_eq (pairs : List (Option String × Option String))
    (e p : Option String) (doc : NerDoc) :
    (extract_contacts pairs e p doc).name =
      (if pyTruthy (kvFill pairs).name then (kvFill pairs).name
       else
         match firstPerson doc with
         | some t => some t
         | none => (kvFill pairs).name) := by
  rcases hc : kvFill pairs with ⟨n0, e0, p0⟩
  by_cases h1 : pyTruthy e0 = true <;> by_cases h2 : pyTruthy p0 = true <;>
    by_cases h3 : pyTruthy n0 = true <;> cases hfp : firstPerson doc <;>
      simp_all [extract_contacts, hc]

/-- C4 (amended): stage precedence of the contact extraction.  Email and phone
come from the key-value stage when that stage produced a non-empty value and
from the regex backfill otherwise; the name comes from the key-value stage
when non-empty, else from the first `Person` NER entity, else stays as the
key-value stage left it.  Within the key-value stage the first pair whose key
contains "name" and whose value is non-empty fixes the name for good, and a
pair fills at most one field: a key matching several fields fills only the
first still-empty one in the order name, email, phone. -/
theorem contact_extraction_precedence
    (pairs : List (Option String × Option String))
    (emailRegex phoneRegex : Option String) (doc : NerDoc) :
    (pyTruthy (kvFill pairs).email = true →
      (extract_contacts pairs emailRegex phoneRegex doc).email = (kvFill pairs).email) ∧
    (pyTruthy (kvFill pairs).email = false →
      (extract_contacts pairs emailRegex phoneRegex doc).email = emailRegex) ∧
    (pyTruthy (kvFill pairs).phone = true →
      (extract_contacts pairs emailRegex phoneRegex doc).phone = (kvFill pairs).phone) ∧
    (pyTruthy (kvFill pairs).phone = false →
      (extract_contacts pairs emailRegex phoneRegex doc).phone = phoneRegex) ∧
    (pyTruthy (kvFill pairs).name = true →
      (extract_contacts pairs emailRegex phoneRegex doc).name = (kvFill pairs).name) ∧
    (∀ t, pyTruthy (kvFill pairs).name = false → firstPerson doc = some t →
      (extract_contacts pairs emailRegex phoneRegex doc).name = some t) ∧
    (pyTruthy (kvFill pairs).name = false → firstPerson doc = none →
      (extract_contacts pairs emailRegex phoneRegex doc).name = (kvFill pairs).name) ∧
    (∀ (k v : String) (rest : List (Option String × Option String)),
      strInfix "name" (pyLower k) = true → v.data.isEmpty = false →
      (kvFill ((some k, some v) :: rest)).name = some v) ∧
    (∀ (k v : String),
      strInfix "name" (pyLower k) = false → strInfix "email" (pyLower k) = true →
      strInfix "phone" (pyLower k) = true → v.data.isEmpty = false →
      (kvFill [(some k, some v)]).email = some v ∧
      (kvFill [(some k, some v)]).phone = none) := by
  refine ⟨?_, ?_, ?_, ?_, ?_, ?_, ?_, ?_, ?_⟩
  · intro h
    rw [extract_contacts_email_eq]
    simp [h]
  · intro h
    rw [extract_contacts_email_eq]
    simp [h]
  · intro h
    rw [extract_contacts_phone_eq]
    simp [h]
  · intro h
    rw [extract_contacts_phone_eq]
    simp [h]
  · intro h
    rw [extract_contacts_name_eq]
    simp [h]
  · intro t h hfp
    rw [extract_contacts_name_eq]
    simp [h, hfp]
  · intro h hfp
    rw [extract_contacts_name_eq]
    simp [h, hfp]
  · intro k v rest hk hv
    have hstep : kvStep ⟨none, none, none⟩ (some k, some v) =
        { name := some v, email := none, phone := none } := by
      simp [kvStep, hk, pyTruthy]
    have htr : pyTruthy (some v) = true := by simp [pyTruthy, hv]
    calc (kvFill ((some k, some v) :: rest)).name
        = (rest.foldl kvStep (kvStep ⟨none, none, none⟩ (some k, some v))).name := rfl
      _ = (kvStep ⟨none, none, none⟩ (some k, some v)).name := by
          apply kvFold_keeps_name
          rw [hstep]
          exact htr
      _ = some v := by rw [hstep]
  · intro k v hk1 hk2 hk3 hv
    constructor
    · simp [kvFill, kvStep, hk1, hk2, pyTruthy]
    · simp [kvFill, kvStep, hk1, hk2, hk3, pyTruthy]

/-- Witness for C4 at a concrete input: a "Name" key-value pair fixes the
name, and the regex backfill supplies the missing email. -/
theorem contact_extraction_precedence_witness :
    (extract_contacts [(some "Name", some "Ada")] (some "ada@x.io") none
      ⟨false, []⟩).email = some "ada@x.io" ∧
    (extract_contacts [(some "Name", some "Ada")] (some "ada@x.io") none
      ⟨false, []⟩).name = some "Ada" := by
  constructor
  · exact (contact_extraction_precedence [(some "Name", some "Ada")]
      (some "ada@x.io") none ⟨false, []⟩).2.1 (by decide)
  · have h := (contact_extraction_precedence [(some "Name", some "Ada")]
      (some "ada@x.io") none ⟨false, []⟩).2.2.2.2.1 (by decide)
    rw [h]
    decide

/-- C4 counterexample: the pair `("Email Phone", "123")` has a key containing
"phone", yet because of the `elif` chain it fills only the email field; with
no later-stage phone available the final phone is `None`, although the claim
says the phone is taken from the first pair whose key contains "phone". -/
theorem contact_extraction_claim_cex :
    strInfix "phone" (pyLower "Email Phone") = true ∧
    (extract_contacts [(some "Email Phone", some "123")] none none
      ⟨true, []⟩).email = some "123" ∧
    (extract_contacts [(some "Email Phone", some "123")] none none
      ⟨true, []⟩).phone = none := by
  decide

/-! ## qr_scanner.py: the decode cascade (`QRScanner.scan_qr` and helpers)

The image pipeline is embedded over an abstract image type `Img`.  All
external operations (file system, PIL, pyzbar, OpenCV) are oracle fields of
`ScanEnv`; the control flow of `scan_qr`, `_decode_qr_codes` and
`_scan_with_opencv` is translated from the source.  Every `except` branch of
the source returns an error dictionary, so the embedding is a total function.
The `positions` list and the type-specific `url_info`/`email_info`/
`phone_info` sub-dictionaries (built from the external `urlparse`/`validators`
libraries) are not modelled; no claim mentions them. -/

/-- The result dictionary of `scan_qr`; optional fields model keys that are
absent (or `None`) in some branches. -/
structure QRResult where
  success : Bool
  data : Option String := none
  type : Option String := none
  count : Option Nat := none
  all_codes : List String := []
  processing_method : Option String := none
  error : Option String := none
deriving Repr, DecidableEq

/-- Outcome of the external `pyzbar.decode` call on one image: the call can
raise, or return a list of decoded objects; each object's byte payload either
decodes as UTF-8 (`some s`) or not (`none`). -/
inductive PyzbarOutcome
  | raises (msg : String)
  | codes (cs : List (Option String))

/-- Oracles for everything `qr_scanner.py` calls outside this repository. -/
structure ScanEnv (Img : Type) where
  pathExists : String → Bool
  openImage : String → Except String Img
  rgbOk : Img → Bool
  pyzbar : Img → PyzbarOutcome
  urlShape : String → Bool
  contrast15 : Img → Img
  sharpness20 : Img → Img
  unsharpMask : Img → Img
  convertL : Img → Img
  contrast30 : Img → Img
  cvImread : String → Option Img
  cvtGray : Img → Img
  gaussianBlur : Img → Img
  medianBlur : Img → Img
  bilateralFilter : Img → Img
  adaptiveThreshold : Img → Img
  fromArray : Img → Img

/-- `QRScanner._create_error_response` (line 300). -/
def errorResponse (msg : String) : QRResult :=
  { success := false, error := some msg, data := none, type := none }

/-- `QRScanner._decode_qr_codes` (lines 88-148). -/
def decodeQrCodes {Img : Type} (env : ScanEnv Img) (img : Img) : QRResult :=
  if !env.rgbOk img then { success := false, error := some "Failed to convert image" }
  else
    match env.pyzbar img with
    | .raises msg => { success := false, error := some msg }
    | .codes [] => { success := false, error := some "No QR codes found" }
    | .codes (none :: _) =>
      { success := false, error := some "Failed to decode QR content" }
    | .codes (some d :: rest) =>
      { success := true
        data := some d
        type := some (detect_qr_type env.urlShape d)
        count := some (rest.length + 1)
        all_codes :=
          if (some d :: rest).all Option.isSome then (some d :: rest).filterMap id
          else []
        processing_method := none
        error := none }

/-- `QRScanner._enhance_image` (lines 193-204): contrast 1.5, then sharpness
2.0, then an unsharp mask, composed on the PIL image. -/
def enhanceImage {Img : Type} (env : ScanEnv Img) (img : Img) : Img :=
  env.unsharpMask (env.sharpness20 (env.contrast15 img))

/-- `QRScanner._apply_high_contrast` (lines 206-214): grayscale then contrast
3.0. -/
def applyHighContrast {Img : Type} (env : ScanEnv Img) (img : Img) : Img :=
  env.contrast30 (env.convertL img)

/-- The approach loop of `scan_qr` (lines 62-70): first successful decode
wins and is tagged with its approach name. -/
def tryDecodeList {Img : Type} (env : ScanEnv Img) :
    List (String × Img) → Option QRResult
  | [] => none
  | (nm, im) :: rest =>
    let r := decodeQrCodes env im
    if r.success then some { r with processing_method := some nm }
    else tryDecodeList env rest

/-- The OpenCV preprocessing variants of `_scan_with_opencv` (lines 163-173),
built on the grayscale image. -/
def cvVariants {Img : Type} (env : ScanEnv Img) (g : Img) : List (String × Img) :=
  [("original", g), ("gaussian_blur", env.gaussianBlur g),
   ("median_blur", env.medianBlur g), ("bilateral_filter", env.bilateralFilter g),
   ("adaptive_threshold", env.adaptiveThreshold g)]

/-- The method loop of `_scan_with_opencv` (lines 177-185): each variant is
converted back to a PIL image (`Image.fromarray`) and decoded; the first
success is tagged `opencv_<method>`. -/
def tryCvList {Img : Type} (env : ScanEnv Img) :
    List (String × Img) → Option QRResult
  | [] => none
  | (nm, im) :: rest =>
    let r := decodeQrCodes env (env.fromArray im)
    if r.success then some { r with processing_method := some ("opencv_" ++ nm) }
    else tryCvList env rest

/-- `QRScanner._scan_with_opencv` (lines 150-191). -/
def scanWithOpenCV {Img : Type} (env : ScanEnv Img) (path : String) : QRResult :=
  match env.cvImread path with
  | none => { success := false, error := some "Could not read image with OpenCV" }
  | some img =>
    match tryCvList env (cvVariants env (env.cvtGray img)) with
    | some r => r
    | none => { success := false, error := some "No QR codes found with OpenCV" }

/-- Extension part of Python `os.path.splitext` on the basename: the
extension starts at the last dot, provided some non-dot character precedes it
within the basename (so ".bashrc" has no extension). -/
def extOfBase (b : List Char) : List Char :=
  let rev := b.reverse
  if rev.contains '.' then
    let tail := rev.takeWhile (fun c => c != '.')
    let pre := rev.drop (tail.length + 1)
    if pre.any (fun c => c != '.') then '.' :: tail.reverse else []
  else []

/-- `os.path.splitext(image_path)[1]` (posix separator). -/
def pySplitextExt (p : String) : String :=
  ⟨extOfBase ((p.data.reverse.takeWhile (fun c => c != '/')).reverse)⟩

/-- `self.supported_formats` (line 33). -/
def supported_formats : List String :=
  [".png", ".jpg", ".jpeg", ".gif", ".bmp", ".tiff"]

/-- `QRScanner.scan_qr` (lines 35-86). -/
def scan_qr {Img : Type} (env : ScanEnv Img) (path : String)
    (enhance_image : Bool) : QRResult :=
  if !env.pathExists path then errorResponse "Image file not found"
  else
    let file_ext := pyLower (pySplitextExt path)
    if file_ext ∉ supported_formats then
      errorResponse ("Unsupported image format: " ++ file_ext)
    else
      match env.openImage path with
      | .error e => errorResponse ("Error opening image: " ++ e)
      | .ok img =>
        let approaches :=
          [("original", img),
           ("enhanced", if enhance_image then enhanceImage env img else img),
           ("grayscale", env.convertL img),
           ("high_contrast", if enhance_image then applyHighContrast env img else img)]
        match tryDecodeList env approaches with
        | some r => r
        | none =>
          if enhance_image then
            let cv := scanWithOpenCV env path
            if cv.success then cv else errorResponse "No QR code found in image"
          else errorResponse "No QR code found in image"

/-- The cascade as the specification words it: the ordered attempt list
original, contrast-enhanced/sharpened/unsharp-masked, grayscale,
high-contrast grayscale, then (when OpenCV can read the file) the OpenCV
blur/threshold variants. -/
def cascadeVariants {Img : Type} (env : ScanEnv Img) (path : String) (img : Img) :
    List (String × Img) :=
  [("original", img), ("enhanced", enhanceImage env img),
   ("grayscale", env.convertL img), ("high_contrast", applyHighContrast env img)] ++
  (match env.cvImread path with
   | none => []
   | some cvimg =>
     (cvVariants env (env.cvtGray cvimg)).map
       (fun v => ("opencv_" ++ v.1, env.fromArray v.2)))

/-- Spec-side first-success scan over an ordered variant list: the first
variant that decodes determines the result and the reported processing
method; if every variant fails the overall failure result is returned. -/
def firstDecode {Img : Type} (env : ScanEnv Img) : List (String × Img) → QRResult
  | [] => errorResponse "No QR code found in image"
  | (nm, im) :: rest =>
    let r := decodeQrCodes env im
    if r.success then { r with processing_method := some nm }
    else firstDecode env rest

theorem tryDecodeList_append {Img : Type} (env : ScanEnv Img)
    (l1 l2 : List (String × Img)) :
    tryDecodeList env (l1 ++ l2) =
      match tryDecodeList env l1 with
      | some r => some r
      | none => tryDecodeList env l2 := by
  induction l1 with
  | nil => rfl
  | cons v rest ih =>
    rcases v with ⟨nm, im⟩
    by_cases h : (decodeQrCodes env im).success = true <;>
      simp [tryDecodeList, h, ih]

theorem tryCvList_eq_map {Img : Type} (env : ScanEnv Img)
    (l : List (String × Img)) :
    tryCvList env l =
      tryDecodeList env
        (l.map (fun v => ("opencv_" ++ v.1, env.fromArray v.2))) := by
  induction l with
  | nil => rfl
  | cons v rest ih =>
    rcases v with ⟨nm, im⟩
    by_cases h : (decodeQrCodes env (env.fromArray im)).success = true <;>
      simp [tryCvList, tryDecodeList, h, ih]

theorem tryDecodeList_success {Img : Type} (env : ScanEnv Img) :
    ∀ (l : List (String × Img)) (r : QRResult),
      tryDecodeList env l = some r → r.success = true := by
  intro l
  induction l with
  | nil => intro r h; cases h
  | cons v rest ih =>
    intro r h
    rcases v with ⟨nm, im⟩
    by_cases hs : (decodeQrCodes env im).success = true
    · simp [tryDecodeList, hs] at h
      rw [← h]
    · simp [tryDecodeList, hs] at h
      exact ih r h

theorem firstDecode_eq_try {Img : Type} (env : ScanEnv Img) :
    ∀ l : List (String × Img),
      firstDecode env l =
        match tryDecodeList env l with
        | some r => r
        | none => errorResponse "No QR code found in image" := by
  intro l
  induction l with
  | nil => rfl
  | cons v rest ih =>
    rcases v with ⟨nm, im⟩
    by_cases h : (decodeQrCodes env im).success = true <;>
      simp [firstDecode, tryDecodeList, h, ih]

/-- C2: under the default `enhance_image=True` call, once the file exists,
has a supported extension and opens, `scan_qr` is exactly the first-success
scan over the ordered cascade: original, contrast-enhanced/sharpened/
unsharp-masked, grayscale, high-contrast grayscale, then the OpenCV
blur/threshold variants; the first variant that decodes determines the result
and the reported `processing_method`, and the failure result is returned only
when every variant fails. -/
theorem scan_qr_cascade_order {Img : Type} (env : ScanEnv Img) (path : String)
    (img : Img) (h1 : env.pathExists path = true)
    (h2 : pyLower (pySplitextExt path) ∈ supported_formats)
    (h3 : env.openImage path = Except.ok img) :
    scan_qr env path true = firstDecode env (cascadeVariants env path img) := by
  rw [firstDecode_eq_try]
  unfold cascadeVariants
  rw [tryDecodeList_append]
  have hscan : scan_qr env path true =
      match tryDecodeList env
          [("original", img), ("enhanced", enhanceImage env img),
           ("grayscale", env.convertL img),
           ("high_contrast", applyHighContrast env img)] with
      | some r => r
      | none =>
        if (scanWithOpenCV env path).success then scanWithOpenCV env path
        else errorResponse "No QR code found in image" := by
    unfold scan_qr
    simp [h1, h2, h3]
  rw [hscan]
  cases htry : tryDecodeList env
      [("original", img), ("enhanced", enhanceImage env img),
       ("grayscale", env.convertL img),
       ("high_contrast", applyHighContrast env img)] with
  | some r => simp
  | none =>
    simp only []
    unfold scanWithOpenCV
    cases hcv : env.cvImread path with
    | none => simp [tryDecodeList, errorResponse]
    | some cvimg =>
      cases hcv2 : tryCvList env (cvVariants env (env.cvtGray cvimg)) with
      | none =>
        have hmap : tryDecodeList env
            ((cvVariants env (env.cvtGray cvimg)).map
              (fun v => ("opencv_" ++ v.1, env.fromArray v.2))) = none := by
          rw [← tryCvList_eq_map]; exact hcv2
        simp [hcv2, hmap, errorResponse]
      | some r =>
        have hmap : tryDecodeList env
            ((cvVariants env (env.cvtGray cvimg)).map
              (fun v => ("opencv_" ++ v.1, env.fromArray v.2))) = some r := by
          rw [← tryCvList_eq_map]; exact hcv2
        have hs : r.success = true := tryDecodeList_success env _ r hmap
        simp [hcv2, hmap, hs]

/-- A concrete scan environment over `Img := Nat` for the witnesses: pyzbar
succeeds exactly on the image value produced by the enhanced variant. -/
def exEnv : ScanEnv Nat :=
  { pathExists := fun _ => true
    openImage := fun _ => Except.ok 0
    rgbOk := fun _ => true
    pyzbar := fun i =>
      if i == 3 then PyzbarOutcome.codes [some "hello"] else PyzbarOutcome.codes []
    urlShape := fun _ => false
    contrast15 := fun i => i + 1
    sharpness20 := fun i => i + 1
    unsharpMask := fun i => i + 1
    convertL := fun i => i + 10
    contrast30 := fun i => i + 100
    cvImread := fun _ => none
    cvtGray := id
    gaussianBlur := id
    medianBlur := id
    bilateralFilter := id
    adaptiveThreshold := id
    fromArray := id }

/-- Witness for C2 at the concrete environment. -/
theorem scan_qr_cascade_order_witness :
    scan_qr exEnv "qr.png" true = firstDecode exEnv (cascadeVariants exEnv "qr.png" 0) :=
  scan_qr_cascade_order exEnv "qr.png" 0 rfl (by decide) rfl

/-- C8: a nonexistent path is rejected with "Image file not found", and an
existing path with an unsupported (case-insensitively compared) extension is
rejected with "Unsupported image format: <ext>".  Both equations hold for
every environment, in particular for arbitrary open/decode oracles, so no
attempt is made to open or decode the image. -/
theorem scan_qr_input_validation {Img : Type} (env : ScanEnv Img) (path : String)
    (b : Bool) :
    (env.pathExists path = false →
      scan_qr env path b = errorResponse "Image file not found") ∧
    (env.pathExists path = true → pyLower (pySplitextExt path) ∉ supported_formats →
      scan_qr env path b =
        errorResponse ("Unsupported image format: " ++ pyLower (pySplitextExt path))) := by
  constructor
  · intro h
    simp [scan_qr, h]
  · intro h1 h2
    simp [scan_qr, h1, h2]

/-- Witness for C8: a missing file and an existing `.txt` file. -/
theorem scan_qr_input_validation_witness :
    scan_qr { exEnv with pathExists := fun _ => false } "qr.png" true =
      errorResponse "Image file not found" ∧
    scan_qr exEnv "resume.txt" true =
      errorResponse ("Unsupported image format: " ++ pyLower (pySplitextExt "resume.txt")) :=
  ⟨(scan_qr_input_validation { exEnv with pathExists := fun _ => false } "qr.png" true).1 rfl,
   (scan_qr_input_validation exEnv "resume.txt" true).2 rfl (by decide)⟩

theorem decodeQrCodes_shape {Img : Type} (env : ScanEnv Img) (img : Img) :
    ((decodeQrCodes env img).success = true →
      (decodeQrCodes env img).data.isSome = true ∧
      (decodeQrCodes env img).type.isSome = true ∧
      (decodeQrCodes env img).count.isSome = true) ∧
    ((decodeQrCodes env img).success = false →
      (decodeQrCodes env img).error.isSome = true) := by
  by_cases hr : env.rgbOk img = true
  · cases hz : env.pyzbar img with
    | raises msg => simp [decodeQrCodes, hr, hz]
    | codes cs =>
      cases cs with
      | nil => simp [decodeQrCodes, hr, hz]
      | cons c rest =>
        cases c with
        | none => simp [decodeQrCodes, hr, hz]
        | some d => simp [decodeQrCodes, hr, hz]
  · simp only [Bool.not_eq_true] at hr
    simp [decodeQrCodes, hr]

theorem tryDecodeList_shape {Img : Type} (env : ScanEnv Img) :
    ∀ (l : List (String × Img)) (r : QRResult), tryDecodeList env l = some r →
      r.success = true ∧ r.data.isSome = true ∧ r.type.isSome = true ∧
      r.count.isSome = true ∧ r.processing_method.isSome = true := by
  intro l
  induction l with
  | nil => intro r h; cases h
  | cons v rest ih =>
    intro r h
    rcases v with ⟨nm, im⟩
    by_cases hs : (decodeQrCodes env im).success = true
    · simp only [tryDecodeList, hs, if_true] at h
      rcases (decodeQrCodes_shape env im).1 hs with ⟨hd, ht, hc⟩
      have h2 := Option.some.inj h
      rw [← h2]
      exact ⟨rfl, hd, ht, hc, rfl⟩
    · simp [tryDecodeList, hs] at h
      exact ih r h

theorem scanWithOpenCV_shape {Img : Type} (env : ScanEnv Img) (path : String) :
    ((scanWithOpenCV env path).success = true →
      (scanWithOpenCV env path).data.isSome = true ∧
      (scanWithOpenCV env path).type.isSome = true ∧
      (scanWithOpenCV env path).count.isSome = true ∧
      (scanWithOpenCV env path).processing_method.isSome = true) ∧
    ((scanWithOpenCV env path).success = false →
      (scanWithOpenCV env path).error.isSome = true) := by
  unfold scanWithOpenCV
  cases hcv : env.cvImread path with
  | none => simp
  | some img =>
    cases hcv2 : tryCvList env (cvVariants env (env.cvtGray img)) with
    | none => simp [hcv2]
    | some r =>
      have hmap := hcv2
      rw [tryCvList_eq_map] at hmap
      rcases tryDecodeList_shape env _ r hmap with ⟨hs', hd', ht', hc', hm'⟩
      simp only [hcv2]
      refine ⟨fun _ => ⟨hd', ht', hc', hm'⟩, fun hf => ?_⟩
      rw [hs'] at hf
      cases hf

/-- C9: every result of `scan_qr` has a boolean `success`; a successful
result also carries the decoded `data`, its `type`, the `count` of decoded
codes and the `processing_method` that succeeded, while a failed result
carries an `error` message.  The embedding is a total function because every
code path of the source catches its exceptions and returns a dictionary. -/
theorem scan_qr_result_shape {Img : Type} (env : ScanEnv Img) (path : String)
    (b : Bool) :
    ((scan_qr env path b).success = true →
      (scan_qr env path b).data.isSome = true ∧
      (scan_qr env path b).type.isSome = true ∧
      (scan_qr env path b).count.isSome = true ∧
      (scan_qr env path b).processing_method.isSome = true) ∧
    ((scan_qr env path b).success = false →
      (scan_qr env path b).error.isSome = true) := by
  unfold scan_qr
  by_cases h1 : env.pathExists path = true
  · simp only [h1, Bool.not_true, Bool.false_eq_true, if_false]
    by_cases h2 : pyLower (pySplitextExt path) ∈ supported_formats
    · simp only [h2, not_true, if_false]
      cases h3 : env.openImage path with
      | error e => simp [errorResponse]
      | ok img =>
        simp only []
        cases htry : tryDecodeList env
            [("original", img),
             ("enhanced", if b then enhanceImage env img else img),
             ("grayscale", env.convertL img),
             ("high_contrast", if b then applyHighContrast env img else img)] with
        | some r =>
          rcases tryDecodeList_shape env _ r htry with ⟨hs', hd', ht', hc', hm'⟩
          refine ⟨fun _ => ⟨hd', ht', hc', hm'⟩, fun hf => ?_⟩
          rw [hs'] at hf
          cases hf
        | none =>
          cases b with
          | false => simp [errorResponse]
          | true =>
            by_cases hcv : (scanWithOpenCV env path).success = true
            · have := (scanWithOpenCV_shape env path).1 hcv
              simp only [if_true, hcv]
              simpa [hcv] using this
            · simp only [Bool.not_eq_true] at hcv
              simp [hcv, errorResponse]
    · simp [h2, errorResponse]
  · simp only [Bool.not_eq_true] at h1
    simp [h1, errorResponse]

/-- Witness for C9 at the concrete environment (a successful scan and a
failing one). -/
theorem scan_qr_result_shape_witness :
    ((scan_qr exEnv "qr.png" true).success = true →
      (scan_qr exEnv "qr.png" true).data.isSome = true ∧
      (scan_qr exEnv "qr.png" true).type.isSome = true ∧
      (scan_qr exEnv "qr.png" true).count.isSome = true ∧
      (scan_qr exEnv "qr.png" true).processing_method.isSome = true) ∧
    ((scan_qr exEnv "qr.png" false).success = false →
      (scan_qr exEnv "qr.png" false).error.isSome = true) :=
  ⟨(scan_qr_result_shape exEnv "qr.png" true).1,
   (scan_qr_result_shape exEnv "qr.png" false).2⟩

/-! ## Temp-file lifecycle (qr_scanner.py `download_and_scan_qr`, app.py
`handle_file_upload`)

File-system effects are recorded as an explicit event trace. -/

inductive FsEvent
  | create (path : String)
  | unlink (path : String)
deriving Repr, DecidableEq

/-- `QRScanner.download_and_scan_qr` (qr_scanner.py lines 323-358).  `validUrl`
is the external `validators.url` check, `download` the `requests.get` outcome,
`createOk` whether `NamedTemporaryFile(delete=False)` succeeds (it creates the
file on disk at construction), `writeOk` whether `tmp_file.write` succeeds,
and `scan` the (total, see C9) `scan_qr` call on the saved path.  Because the
source assigns `tmp_file_path = tmp_file.name` only after the write, a write
failure is caught with the created file's path never recorded: that branch
returns with the `create` event and no `unlink`.  On the remaining paths the
`os.unlink` call is traced unconditionally (its own failure is caught and
only logged). -/
def download_and_scan_qr (validUrl : Bool) (download : Except String Unit)
    (tmpPath : String) (createOk writeOk : Bool) (scan : String → QRResult) :
    QRResult × List FsEvent :=
  if !validUrl then (errorResponse "Invalid URL provided", [])
  else
    match download with
    | .error e => (errorResponse ("Error downloading image: " ++ e), [])
    | .ok _ =>
      if !createOk then (errorResponse "Failed to save temporary file", [])
      else if !writeOk then
        (errorResponse "Failed to save temporary file", [FsEvent.create tmpPath])
      else (scan tmpPath, [FsEvent.create tmpPath, FsEvent.unlink tmpPath])

/-- `handle_file_upload` (app.py lines 115-127).  `createOk` is whether
`NamedTemporaryFile` itself succeeds (before that, `file_path` is `None` and
the `finally` block has nothing to remove); `file_path` is assigned before the
write, so the `finally` unlink runs for a failing write and for a failing
`handler_func`, whose exception is re-raised to the caller afterwards. -/
def handle_file_upload (createOk : Bool) (tmpPath : String) (writeOk : Bool)
    (handler : String → Except String Unit) :
    Except String Unit × List FsEvent :=
  if !createOk then (.error "NamedTemporaryFile failed", [])
  else if !writeOk then
    (.error "write failed", [FsEvent.create tmpPath, FsEvent.unlink tmpPath])
  else
    match handler tmpPath with
    | .ok _ => (.ok (), [FsEvent.create tmpPath, FsEvent.unlink tmpPath])
    | .error e => (.error e, [FsEvent.create tmpPath, FsEvent.unlink tmpPath])

/-- C7 counterexample: on a failing `tmp_file.write` after a successful
`NamedTemporaryFile(delete=False)`, `download_and_scan_qr` returns the
"Failed to save temporary file" error with the created temp file never
unlinked — a failure path on which a temp file the program created is not
deleted before the operation returns, contradicting the claim. -/
theorem temp_file_cleanup_claim_cex :
    (download_and_scan_qr true (.ok ()) "tmp.png" true false
        (fun _ => errorResponse "unused")).2 = [FsEvent.create "tmp.png"] ∧
    FsEvent.unlink "tmp.png" ∉
      (download_and_scan_qr true (.ok ()) "tmp.png" true false
        (fun _ => errorResponse "unused")).2 ∧
    (download_and_scan_qr true (.ok ()) "tmp.png" true false
        (fun _ => errorResponse "unused")).1 =
      errorResponse "Failed to save temporary file" := by
  refine ⟨rfl, ?_, rfl⟩
  simp [download_and_scan_qr]

/-- C7 (amended): every temp file whose path the program records is unlinked
before the operation returns.  `download_and_scan_qr` unlinks the saved file
whenever the write succeeded (the only case in which `tmp_file_path` is
assigned) and still returns the scan result whatever that result is;
`handle_file_upload` unlinks in its `finally` block whenever the temp file was
created, for every write/handler outcome, and a handler failure is re-raised
only after the cleanup.  The one exception, forced by the counterexample, is
the download temp file whose write fails after creation: it is left behind. -/
theorem temp_file_cleanup (tmpPath : String) :
    (∀ (scan : String → QRResult),
      download_and_scan_qr true (.ok ()) tmpPath true true scan =
        (scan tmpPath, [FsEvent.create tmpPath, FsEvent.unlink tmpPath])) ∧
    (∀ (writeOk : Bool) (handler : String → Except String Unit),
      (handle_file_upload true tmpPath writeOk handler).2 =
        [FsEvent.create tmpPath, FsEvent.unlink tmpPath] ∧
      FsEvent.unlink tmpPath ∈ (handle_file_upload true tmpPath writeOk handler).2) ∧
    (∀ (handler : String → Except String Unit) (e : String),
      handler tmpPath = .error e →
      (handle_file_upload true tmpPath true handler).1 = .error e) := by
  refine ⟨fun scan => rfl, ?_, ?_⟩
  · intro writeOk handler
    cases writeOk with
    | false => exact ⟨rfl, by simp [handle_file_upload]⟩
    | true =>
      cases hh : handler tmpPath with
      | ok u => exact ⟨by simp [handle_file_upload, hh], by simp [handle_file_upload, hh]⟩
      | error e => exact ⟨by simp [handle_file_upload, hh], by simp [handle_file_upload, hh]⟩
  · intro handler e hh
    simp [handle_file_upload, hh]

/-- Witness for C7 at a concrete path and failing handler. -/
theorem temp_file_cleanup_witness :
    (handle_file_upload true "tmp.pdf" true (fun _ => .error "bad pdf")).1 =
      .error "bad pdf" :=
  (temp_file_cleanup "tmp.pdf").2.2 (fun _ => .error "bad pdf") "bad pdf" rfl

/-! ## azure_ai_advisor.py: `get_career_advice` (lines 34-91) -/

/-- The system message of the chat request (line 81). -/
def adviceSystemMsg : String :=
  "You are an expert career consultant specializing in resume evaluation with a quantitative scoring system."

/-- The fixed prompt template (lines 42-77) instantiated with the textual
rendering of the resume-data dictionary. -/
def careerPrompt (resumeRepr : String) : String :=
  "\nYou are a seasoned career consultant. Analyze the following structured resume data and produce a detailed evaluation that includes:\n\n**Resume Data:**\n"
    ++ resumeRepr ++
  "\n\nYour response must contain the following sections, clearly labeled as Markdown headings:\n\n1. **Design & Styling Assessment**\n   - Evaluate the visual layout, formatting consistency, and readability.\n   - Score (0–20 points).\n\n2. **Skills & Competencies Evaluation**\n   - Assess relevance and depth of listed skills. Identify top strengths and missing skills.\n   - Score (0–20 points).\n\n3. **Course & Learning Activities Review**\n   - Review any courses, certifications, or training listed. Check relevance and completeness.\n   - Score (0–20 points).\n\n4. **Internship & Experience Analysis**\n   - Examine internships and work experiences for impact and relevance.\n   - Score (0–20 points).\n\n5. **Overall Resume Score**\n   - Provide a total score out of 100 by summing above categories.\n\n6. **Improvement Recommendations**\n   - For each category (Design, Skills, Courses, Internships), propose 2–3 actionable steps to improve the score.\n   - Include specific examples (e.g., redesign suggestions, courses to add, internship strategies).\n\n7. **Quick Summary Table**\n   - Present a Markdown table with categories, scores, and top recommendation per category.\n\nFormat your analysis in concise, professional language. Use bullet points, tables, and clear headings. Deliver a rigorous, tailored assessment rather than general advice.\n        "

/-- `get_career_advice`: `clientOk` models `initialize_client()` having
returned a client (line 36), `resumeEmpty` the Python falsiness of the
`resume_data` dict (line 38), `resumeRepr` its f-string rendering, and `api`
the external chat-completion call, returning either the first choice's
message content or the text of the raised exception. -/
def get_career_advice (clientOk : Bool) (resumeEmpty : Bool) (resumeRepr : String)
    (api : List (String × String) → Except String String) : String :=
  if !clientOk then
    "❌ Azure OpenAI service is not available. Please check your configuration."
  else if resumeEmpty then "❌ No resume data provided for analysis."
  else
    match api [("system", adviceSystemMsg), ("user", careerPrompt resumeRepr)] with
    | .ok t => t
    | .error e => "❌ Error generating career advice: " ++ e

/-- C5: `get_career_advice` never raises (the embedding is a total function
on all oracle outcomes, mirroring the source's catch-all `except`) and
returns: a fixed error string when the client is unavailable; a fixed error
string when the resume data is empty; the exception's message wrapped in an
error string when the API call fails; and, on success, exactly the raw text
of the chat response to the fixed prompt template instantiated with the
resume data. -/
theorem career_advice_behavior (clientOk resumeEmpty : Bool) (resumeRepr : String)
    (api : List (String × String) → Except String String) :
    (clientOk = false →
      get_career_advice clientOk resumeEmpty resumeRepr api =
        "❌ Azure OpenAI service is not available. Please check your configuration.") ∧
    (clientOk = true → resumeEmpty = true →
      get_career_advice clientOk resumeEmpty resumeRepr api =
        "❌ No resume data provided for analysis.") ∧
    (∀ t, clientOk = true → resumeEmpty = false →
      api [("system", adviceSystemMsg), ("user", careerPrompt resumeRepr)] = .ok t →
      get_career_advice clientOk resumeEmpty resumeRepr api = t) ∧
    (∀ e, clientOk = true → resumeEmpty = false →
      api [("system", adviceSystemMsg), ("user", careerPrompt resumeRepr)] = .error e →
      get_career_advice clientOk resumeEmpty resumeRepr api =
        "❌ Error generating career advice: " ++ e) := by
  refine ⟨?_, ?_, ?_, ?_⟩
  · intro h
    simp [get_career_advice, h]
  · intro h1 h2
    simp [get_career_advice, h1, h2]
  · intro t h1 h2 h3
    simp [get_career_advice, h1, h2, h3]
  · intro e h1 h2 h3
    simp [get_career_advice, h1, h2, h3]

/-- Witness for C5: a successful API call returns its raw text. -/
theorem career_advice_behavior_witness :
    get_career_advice true false "resume" (fun _ => .ok "Advice text.") =
      "Advice text." :=
  (career_advice_behavior true false "resume" (fun _ => .ok "Advice text.")).2.2.1
    "Advice text." rfl rfl rfl

/-! ## app.py `clean_text_for_speech` (lines 29-43) and azure_speaker.py

The five Markdown-stripping steps of `clean_text_for_speech` are executable
scanners replicating the Python `re.sub`/`str.replace` semantics (left-to-
right, leftmost match; non-greedy inner groups; `.` not matching a newline).
The bold/italic scanners use a structural fuel argument equal to the input
length, which is strictly more than any reachable recursion depth, so the
fuel-exhaustion branch is unreachable. -/

/-- `re.sub(r'#{1,6} ', '', text)`: state `k` counts the pending run of `#`;
a run of `k` hashes followed by a space loses its last `min k 6` hashes and
the space. -/
def rhAux : Nat → List Char → List Char
  | k, [] => List.replicate k '#'
  | k, c :: cs =>
    if c = '#' then rhAux (k + 1) cs
    else if c = spaceChar then
      if k = 0 then spaceChar :: rhAux 0 cs
      else if k ≤ 6 then rhAux 0 cs
      else List.replicate (k - 6) '#' ++ rhAux 0 cs
    else List.replicate k '#' ++ c :: rhAux 0 cs

def removeHeadings (l : List Char) : List Char := rhAux 0 l

/-- Leftmost closing `**`/`__` before a newline: returns the inner text and
the remainder after the closer. -/
def findCloseB : List Char → Option (List Char × List Char)
  | [] => none
  | c :: cs =>
    if (c == '*' && cs.head? == some '*') || (c == '_' && cs.head? == some '_') then
      some ([], cs.tail)
    else if c == Char.ofNat 10 then none
    else
      match findCloseB cs with
      | some (i, r) => some (c :: i, r)
      | none => none

/-- `re.sub(r'(\x2a\x2a|__)(.*?)(\x2a\x2a|__)', r'\2', text)`: on an opener,
replace up to the nearest closer by the inner text; if no closer exists on
the line, keep the character and move one position. -/
def subBoldF : Nat → List Char → List Char
  | 0, l => l
  | _ + 1, [] => []
  | f + 1, c :: cs =>
    if (c == '*' && cs.head? == some '*') || (c == '_' && cs.head? == some '_') then
      match findCloseB cs.tail with
      | some (i, r) => i ++ subBoldF f r
      | none => c :: subBoldF f cs
    else c :: subBoldF f cs

def subBold (l : List Char) : List Char := subBoldF l.length l

/-- Leftmost closing `*`/`_` before a newline. -/
def findCloseI : List Char → Option (List Char × List Char)
  | [] => none
  | c :: cs =>
    if c == '*' || c == '_' then some ([], cs)
    else if c == Char.ofNat 10 then none
    else
      match findCloseI cs with
      | some (i, r) => some (c :: i, r)
      | none => none

/-- The italic pass, `re.sub` with single `*`/`_` delimiters. -/
def subItalF : Nat → List Char → List Char
  | 0, l => l
  | _ + 1, [] => []
  | f + 1, c :: cs =>
    if c == '*' || c == '_' then
      match findCloseI cs with
      | some (i, r) => i ++ subItalF f r
      | none => c :: subItalF f cs
    else c :: subItalF f cs

def subItal (l : List Char) : List Char := subItalF l.length l

/-- `text.replace('|', ' ')`. -/
def replacePipes (l : List Char) : List Char :=
  l.map (fun c => if c == '|' then spaceChar else c)

/-- `text.replace('---', ' ')` (leftmost, non-overlapping), with fuel. -/
def replaceDashes3F : Nat → List Char → List Char
  | 0, l => l
  | _ + 1, [] => []
  | f + 1, c :: cs =>
    if c = '-' ∧ cs.take 2 = ['-', '-'] then spaceChar :: replaceDashes3F f (cs.drop 2)
    else c :: replaceDashes3F f cs

def replaceDashes3 (l : List Char) : List Char := replaceDashes3F l.length l

/-- Removal of backtick characters (code point 96). -/
def removeBackticks (l : List Char) : List Char :=
  l.filter (fun c => !(c == Char.ofNat 96))

/-- `re.sub(r'\s+', ' ', text)`: every maximal whitespace run becomes one
space. -/
def collapseWs : List Char → List Char
  | [] => []
  | [c] => if c.isWhitespace then [spaceChar] else [c]
  | c1 :: c2 :: rest =>
    if c1.isWhitespace && c2.isWhitespace then collapseWs (c2 :: rest)
    else (if c1.isWhitespace then spaceChar else c1) :: collapseWs (c2 :: rest)

/-- `clean_text_for_speech` (app.py lines 29-43): headings, bold, italics,
pipes, `---`, backticks, whitespace collapse, strip — in source order. -/
def clean_text_for_speech (s : String) : String :=
  ⟨pyStripL (collapseWs (removeBackticks (replaceDashes3 (replacePipes
    (subItal (subBold (removeHeadings s.data)))))))⟩

/-- No two adjacent whitespace characters. -/
def wsSquashed : List Char → Bool
  | c1 :: c2 :: rest => (!(c1.isWhitespace && c2.isWhitespace)) && wsSquashed (c2 :: rest)
  | _ => true

/-- `html.escape` (quote=True): `&`, `<`, `>`, double quote and apostrophe
are replaced by their entities. -/
def escChar (c : Char) : List Char :=
  if c = '&' then "&amp;".data
  else if c = '<' then "&lt;".data
  else if c = '>' then "&gt;".data
  else if c = Char.ofNat 34 then "&quot;".data
  else if c = Char.ofNat 39 then "&#x27;".data
  else [c]

def htmlEscape (s : String) : String := ⟨(s.data.map escChar).join⟩

/-- `AzureSpeechService._create_ssml` (azure_speaker.py lines 62-74). -/
def createSSML (voiceName rateName text : String) : String :=
  "\n        <speak version=\"1.0\" xmlns=\"http://www.w3.org/2001/10/synthesis\" xml:lang=\"en-US\">\n            <voice name=\""
    ++ voiceName ++ "\">\n                <prosody rate=\"" ++ rateName
    ++ "\">\n                    " ++ htmlEscape text
    ++ "\n                </prosody>\n            </voice>\n        </speak>\n        "

/-- `VOICE_MAPPING` (lines 164-168), as (key, neural-voice name) pairs. -/
def VOICE_MAPPING : List (String × String) :=
  [("jenny", "en-US-JennyNeural"), ("davis", "en-US-DavisNeural"),
   ("aria", "en-US-AriaNeural"), ("guy", "en-US-GuyNeural"),
   ("jane", "en-US-JaneNeural"), ("jason", "en-US-JasonNeural"),
   ("sara", "en-US-SaraNeural"), ("tony", "en-US-TonyNeural")]

/-- `RATE_MAPPING` (lines 169-172). -/
def RATE_MAPPING : List (String × String) :=
  [("slow", "slow"), ("medium", "medium"), ("fast", "fast"),
   ("x-slow", "x-slow"), ("x-fast", "x-fast")]

/-- Python `dict.get(key, default)` over an association list. -/
def lookupD (m : List (String × String)) (k d : String) : String :=
  match m.find? (fun e => e.1 == k) with
  | some e => e.2
  | none => d

def voiceFor (v : String) : String := lookupD VOICE_MAPPING (pyLower v) "en-US-JennyNeural"

def rateFor (r : String) : String := lookupD RATE_MAPPING (pyLower r) "medium"

/-- Outcome of the external `speak_ssml_async(...).get()` call. -/
inductive SynthOutcome
  | completed (audio : List Nat)
  | canceled (reason : String)
  | raises (msg : String)

/-- The speech service state: whether `_initialize_config` produced a config,
and the synthesis oracle from SSML documents to outcomes. -/
structure SpeechEnv where
  configured : Bool
  synth : String → SynthOutcome

/-- `AzureSpeechService.synthesize_speech_to_memory` (lines 118-156): `None`
without config or for empty/whitespace text; the audio bytes exactly when the
synthesis result is `SynthesizingAudioCompleted`; `None` on cancellation or
exception. -/
def synthesize_speech_to_memory (env : SpeechEnv) (text voiceName rateName : String) :
    Option (List Nat) :=
  if !env.configured then none
  else if text == "" || pyStrip text == "" then none
  else
    match env.synth (createSSML voiceName rateName text) with
    | .completed audio => some audio
    | .canceled _ => none
    | .raises _ => none

/-- `get_speech_audio_data` (lines 175-194). -/
def get_speech_audio_data (env : SpeechEnv) (text voice rate : String) :
    Option (List Nat) :=
  synthesize_speech_to_memory env text (voiceFor voice) (rateFor rate)

/-- The Speak-Advice flow of app.py (lines 212-226): clean the advice text,
then request audio with the default voice and rate. -/
def speakAdviceFlow (env : SpeechEnv) (advice : String) : Option (List Nat) :=
  get_speech_audio_data env (clean_text_for_speech advice) "jenny" "medium"

theorem mem_dropWhile_sub {p : Char → Bool} :
    ∀ {l : List Char} {x : Char}, x ∈ l.dropWhile p → x ∈ l := by
  intro l
  induction l with
  | nil => intro x h; cases h
  | cons c cs ih =>
    intro x h
    by_cases hc : p c = true
    · rw [List.dropWhile_cons_of_pos hc] at h
      exact List.mem_cons_of_mem c (ih h)
    · rw [List.dropWhile_cons_of_neg hc] at h
      exact h

theorem mem_trimRightL : ∀ {l : List Char} {x : Char}, x ∈ trimRightL l → x ∈ l := by
  intro l
  induction l with
  | nil => intro x h; cases h
  | cons c cs ih =>
    intro x h
    rw [trimRightL_cons_eq] at h
    cases hc : trimRightL cs with
    | nil =>
      rw [hc] at h
      by_cases hw : c.isWhitespace = true
      · simp [hw] at h
      · simp [hw] at h
        simp [h]
    | cons y ys =>
      rw [hc] at h
      rcases List.mem_cons.mp h with rfl | h2
      · exact List.mem_cons_self x cs
      · exact List.mem_cons_of_mem c (ih (hc ▸ h2))

theorem mem_pyStripL {l : List Char} {x : Char} (h : x ∈ pyStripL l) : x ∈ l :=
  mem_dropWhile_sub (mem_trimRightL h)

theorem collapseWs_mem :
    ∀ {l : List Char} {x : Char}, x ∈ collapseWs l → x = spaceChar ∨ x ∈ l := by
  intro l
  induction l with
  | nil => intro x h; cases h
  | cons c tl ih =>
    intro x h
    cases tl with
    | nil =>
      by_cases hw : c.isWhitespace = true <;> simp [collapseWs, hw] at h <;> simp [h]
    | cons c2 rest =>
      by_cases h12 : (c.isWhitespace && c2.isWhitespace) = true
      · rw [show collapseWs (c :: c2 :: rest) = collapseWs (c2 :: rest) by
          simp [collapseWs, h12]] at h
        rcases ih h with h | h
        · exact Or.inl h
        · exact Or.inr (List.mem_cons_of_mem c h)
      · rw [show collapseWs (c :: c2 :: rest) =
            (if c.isWhitespace then spaceChar else c) :: collapseWs (c2 :: rest) by
          simp [collapseWs, h12]] at h
        rcases List.mem_cons.mp h with rfl | h2
        · by_cases hw : c.isWhitespace = true
          · simp [hw]
          · simp only [Bool.not_eq_true] at hw
            simp [hw]
        · rcases ih h2 with h3 | h3
          · exact Or.inl h3
          · exact Or.inr (List.mem_cons_of_mem c h3)

theorem collapseWs_ws_eq_space :
    ∀ {l : List Char} {x : Char}, x ∈ collapseWs l → x.isWhitespace = true →
      x = spaceChar := by
  intro l
  induction l with
  | nil => intro x h; cases h
  | cons c tl ih =>
    intro x h hwx
    cases tl with
    | nil =>
      by_cases hw : c.isWhitespace = true
      · simp [collapseWs, hw] at h
        exact h
      · simp [collapseWs, hw] at h
        rw [h] at hwx
        simp only [Bool.not_eq_true] at hw
        rw [hw] at hwx
        cases hwx
    | cons c2 rest =>
      by_cases h12 : (c.isWhitespace && c2.isWhitespace) = true
      · rw [show collapseWs (c :: c2 :: rest) = collapseWs (c2 :: rest) by
          simp [collapseWs, h12]] at h
        exact ih h hwx
      · rw [show collapseWs (c :: c2 :: rest) =
            (if c.isWhitespace then spaceChar else c) :: collapseWs (c2 :: rest) by
          simp [collapseWs, h12]] at h
        rcases List.mem_cons.mp h with rfl | h2
        · by_cases hw : c.isWhitespace = true
          · simp [hw]
          · simp only [Bool.not_eq_true] at hw
            simp only [hw, Bool.false_eq_true, if_false] at hwx
        · exact ih h2 hwx

theorem collapseWs_head_of_not_ws (c : Char) (cs : List Char)
    (h : c.isWhitespace = false) :
    (collapseWs (c :: cs)).head? = some c := by
  cases cs with
  | nil => simp [collapseWs, h]
  | cons c2 rest => simp [collapseWs, h]

theorem wsSquashed_nil : wsSquashed [] = true := rfl

theorem wsSquashed_single (c : Char) : wsSquashed [c] = true := rfl

theorem wsSquashed_tail {c : Char} {l : List Char}
    (h : wsSquashed (c :: l) = true) : wsSquashed l = true := by
  cases l with
  | nil => rfl
  | cons d ds =>
    simp only [wsSquashed, Bool.and_eq_true] at h
    exact h.2

theorem collapseWs_squashed : ∀ l : List Char, wsSquashed (collapseWs l) = true := by
  intro l
  induction l with
  | nil => rfl
  | cons c tl ih =>
    cases tl with
    | nil => by_cases hw : c.isWhitespace = true <;> simp [collapseWs, hw, wsSquashed]
    | cons c2 rest =>
      by_cases h12 : (c.isWhitespace && c2.isWhitespace) = true
      · rw [show collapseWs (c :: c2 :: rest) = collapseWs (c2 :: rest) by
          simp [collapseWs, h12]]
        exact ih
      · rw [show collapseWs (c :: c2 :: rest) =
            (if c.isWhitespace then spaceChar else c) :: collapseWs (c2 :: rest) by
          simp [collapseWs, h12]]
        cases hm : collapseWs (c2 :: rest) with
        | nil => exact wsSquashed_single _
        | cons m ms =>
          have ihh : wsSquashed (m :: ms) = true := by rw [← hm]; exact ih
          by_cases hwc : c.isWhitespace = true
          · have hwc2 : c2.isWhitespace = false := by
              cases hb : c2.isWhitespace
              · rfl
              · exact absurd (by rw [hwc, hb]; rfl) h12
            have hh := collapseWs_head_of_not_ws c2 rest hwc2
            rw [hm] at hh
            have hmc2 : m = c2 := by
              simpa using hh
            simp only [hwc, if_true, wsSquashed, Bool.and_eq_true]
            refine ⟨?_, ihh⟩
            rw [hmc2, hwc2]
            simp
          · simp only [Bool.not_eq_true] at hwc
            simp only [hwc, Bool.false_eq_true, if_false, wsSquashed, Bool.and_eq_true]
            refine ⟨?_, ihh⟩
            simp

theorem wsSquashed_dropWhile (p : Char → Bool) :
    ∀ l : List Char, wsSquashed l = true → wsSquashed (l.dropWhile p) = true := by
  intro l
  induction l with
  | nil => intro _; rfl
  | cons c cs ih =>
    intro h
    by_cases hc : p c = true
    · rw [List.dropWhile_cons_of_pos hc]
      exact ih (wsSquashed_tail h)
    · rw [List.dropWhile_cons_of_neg hc]
      exact h

theorem trimRightL_sq :
    ∀ l : List Char, wsSquashed l = true → wsSquashed (trimRightL l) = true := by
  intro l
  induction l with
  | nil => intro _; rfl
  | cons c cs ih =>
    intro h
    rw [trimRightL_cons_eq]
    cases hc : trimRightL cs with
    | nil =>
      by_cases hw : c.isWhitespace = true <;>
        simp [hw, wsSquashed_nil, wsSquashed_single]
    | cons x xs =>
      have hsq : wsSquashed (x :: xs) = true := by
        rw [← hc]; exact ih (wsSquashed_tail h)
      cases cs with
      | nil => cases hc
      | cons a as =>
        have hxa : x = a := by
          rcases trimRightL_head a as with h0 | ⟨r, h0⟩
          · rw [h0] at hc; cases hc
          · rw [h0] at hc
            exact (List.cons.injEq _ _ _ _ ▸ hc).1.symm
        simp only [wsSquashed, Bool.and_eq_true]
        refine ⟨?_, hsq⟩
        have hca : (!(c.isWhitespace && a.isWhitespace)) = true := by
          simp only [wsSquashed, Bool.and_eq_true] at h
          exact h.1
        rw [hxa]
        exact hca

theorem clean_data_eq (s : String) :
    (clean_text_for_speech s).data =
      pyStripL (collapseWs (removeBackticks (replaceDashes3 (replacePipes
        (subItal (subBold (removeHeadings s.data))))))) := rfl

theorem replaceDashes3F_mem :
    ∀ (f : Nat) (l : List Char) (x : Char), x ∈ replaceDashes3F f l →
      x = spaceChar ∨ x ∈ l := by
  intro f
  induction f with
  | zero => intro l x h; exact Or.inr h
  | succ f ih =>
    intro l x h
    cases l with
    | nil => cases h
    | cons c cs =>
      by_cases hcond : c = '-' ∧ cs.take 2 = ['-', '-']
      · simp only [replaceDashes3F, if_pos hcond] at h
        rcases List.mem_cons.mp h with rfl | h2
        · exact Or.inl rfl
        · rcases ih (cs.drop 2) x h2 with h3 | h3
          · exact Or.inl h3
          · exact Or.inr (List.mem_cons_of_mem c (List.drop_subset 2 cs h3))
      · simp only [replaceDashes3F, if_neg hcond] at h
        rcases List.mem_cons.mp h with rfl | h2
        · exact Or.inr (List.mem_cons_self _ _)
        · rcases ih cs x h2 with h3 | h3
          · exact Or.inl h3
          · exact Or.inr (List.mem_cons_of_mem c h3)

theorem clean_ws_space (advice : String) :
    ∀ x ∈ (clean_text_for_speech advice).data, x.isWhitespace = true →
      x = spaceChar := by
  intro x hx hwx
  rw [clean_data_eq] at hx
  exact collapseWs_ws_eq_space (mem_pyStripL hx) hwx

theorem clean_squashed (advice : String) :
    wsSquashed (clean_text_for_speech advice).data = true := by
  rw [clean_data_eq]
  exact trimRightL_sq _ (wsSquashed_dropWhile _ _ (collapseWs_squashed _))

theorem clean_strip_fixed (advice : String) :
    pyStrip (clean_text_for_speech advice) = clean_text_for_speech advice := by
  unfold clean_text_for_speech pyStrip
  exact congrArg String.mk (pyStripL_idem _)

theorem clean_no_pipe_tick (advice : String) :
    ∀ x ∈ (clean_text_for_speech advice).data,
      ¬x = Char.ofNat 96 ∧ ¬x = '|' := by
  intro x hx
  rw [clean_data_eq] at hx
  rcases collapseWs_mem (mem_pyStripL hx) with rfl | hx3
  · exact ⟨by decide, by decide⟩
  · have hpair := List.mem_filter.mp hx3
    have h96 : ¬x = Char.ofNat 96 := by
      intro he
      rw [he] at hpair
      simpa using hpair.2
    refine ⟨h96, ?_⟩
    have hx4 := hpair.1
    simp only [replaceDashes3] at hx4
    rcases replaceDashes3F_mem _ _ x hx4 with rfl | hx5
    · decide
    · rcases List.mem_map.mp hx5 with ⟨c, _, hfc⟩
      intro he
      by_cases hcp : (c == '|') = true
      · rw [← hfc, if_pos hcp] at he
        exact absurd he (by decide)
      · rw [← hfc, if_neg (by simp [hcp])] at he
        exact hcp (beq_iff_eq.mpr he)

/-- C6: the markdown-stripping step leaves only single interior spaces (every
whitespace character of the output is a space, no two are adjacent, and the
output is strip-fixed, i.e. has no leading or trailing whitespace), contains
no table pipes and no backticks; the cleaned advice is then wrapped in the
SSML template with the default voice and rate and forwarded for synthesis,
which returns exactly the synthesizer's audio bytes on completion.  The
concrete conjunct shows the heading/bold/italic/pipe/dash/backtick markers
being removed while their inner text is kept. -/
theorem clean_speech_pipeline (advice : String) (env : SpeechEnv)
    (audio : List Nat) :
    (∀ x ∈ (clean_text_for_speech advice).data, x.isWhitespace = true →
      x = spaceChar) ∧
    wsSquashed (clean_text_for_speech advice).data = true ∧
    pyStrip (clean_text_for_speech advice) = clean_text_for_speech advice ∧
    (∀ x ∈ (clean_text_for_speech advice).data,
      ¬x = Char.ofNat 96 ∧ ¬x = '|') ∧
    (env.configured = true → ¬clean_text_for_speech advice = "" →
      env.synth (createSSML "en-US-JennyNeural" "medium"
        (clean_text_for_speech advice)) = SynthOutcome.completed audio →
      speakAdviceFlow env advice = some audio) ∧
    clean_text_for_speech "## **Career** advice | `code`  ---  _tips_" =
      "Career advice code tips" := by
  refine ⟨clean_ws_space advice, clean_squashed advice, clean_strip_fixed advice,
    clean_no_pipe_tick advice, ?_, by decide⟩
  intro hconf hne hsynth
  have hv : voiceFor "jenny" = "en-US-JennyNeural" := by decide
  have hr : rateFor "medium" = "medium" := by decide
  have hbeq : (clean_text_for_speech advice == "") = false :=
    beq_eq_false_iff_ne.mpr hne
  unfold speakAdviceFlow get_speech_audio_data
  rw [hv, hr]
  unfold synthesize_speech_to_memory
  rw [hconf, clean_strip_fixed advice, hbeq, hsynth]
  simp

/-- Concrete speech environment for the C6 witness. -/
def speechEnvEx : SpeechEnv := ⟨true, fun _ => SynthOutcome.completed [1, 2, 3]⟩

/-- Witness for C6: the full clean-then-synthesize flow on concrete advice. -/
theorem clean_speech_pipeline_witness :
    speakAdviceFlow speechEnvEx "hello world" = some [1, 2, 3] :=
  (clean_speech_pipeline "hello world" speechEnvEx [1, 2, 3]).2.2.2.2.1
    rfl (by decide) rfl
